import Mathlib

/-!
Verification of the ownership-scoped cloud-storage core of the
Rishit1378/Cloud-Storage repository.

The embedding below translates the TypeScript/SQL source into Lean:

* `splitOnChar`, `fileExt`, `generateFileName`, `generateFilePath` embed the
  storage-key generation in `handleUpload` (FileUpload component):
  `const fileExt = selectedFile.name.split('.').pop();`
  `const fileName = Date.now() + '-' + rand + '.' + fileExt;`
  `const filePath = user.id + '/' + fileName;`
  JavaScript strings are modelled as `List Char`; `split('.')` on a
  single-character separator is `splitOnChar '.'`, and `.pop()` on the
  resulting non-empty array is its last element.
* `FileRow`, `rlsSelect`, `queryRows`, `loadFilesResult` embed the `files`
  table, the row-level-security SELECT policy `USING (auth.uid() = user_id)`
  from the SQL migration, and the `loadFiles` query
  `.from('files').select('*').eq('user_id', user.id)
   .order('created_at', { ascending: false })` in FileList.tsx.
  Because the query requests a single sort key, the backend's choice of
  order among rows with equal `created_at` is unspecified; the result is
  therefore modelled as a relation: any permutation of the filtered rows
  that is sorted by `created_at` descending.
* `handleFileSelect`, `handleUpload`, `handleDelete` embed the homonymous
  handlers, with backend outcomes (storage upload/remove, catalog
  insert/delete) injected as `Option Str` error parameters and the list of
  backend calls recorded as a trace.
-/

namespace CloudStorage

/-- JavaScript strings are modelled as lists of characters. -/
abbrev Str := List Char

/-- Embedding of JavaScript `String.prototype.split` with a single-character
separator: `splitOnChar c l` is the list of maximal `c`-free segments of `l`,
always non-empty (`[] ↦ [[]]`, matching `''.split('.') = ['']`). -/
def splitOnChar (c : Char) : Str → List Str
  | [] => [[]]
  | x :: xs =>
    match splitOnChar c xs with
    | [] => [[]]
    | y :: ys => if x = c then [] :: y :: ys else (x :: y) :: ys

theorem splitOnChar_ne_nil (c : Char) (l : Str) : splitOnChar c l ≠ [] := by
  cases l with
  | nil => simp [splitOnChar]
  | cons x xs =>
    simp only [splitOnChar]
    cases h : splitOnChar c xs with
    | nil => simp
    | cons y ys =>
      by_cases hx : x = c <;> simp [hx]

theorem splitOnChar_of_not_mem (c : Char) (l : Str) (h : c ∉ l) :
    splitOnChar c l = [l] := by
  induction l with
  | nil => rfl
  | cons x xs ih =>
    have hx : x ≠ c := fun hxc => h (hxc ▸ List.mem_cons_self x xs)
    have hxs : c ∉ xs := fun hm => h (List.mem_cons_of_mem x hm)
    simp only [splitOnChar, ih hxs]
    simp [hx]

theorem splitOnChar_length_ge_two (c : Char) (l : Str) (h : c ∈ l) :
    2 ≤ (splitOnChar c l).length := by
  induction l with
  | nil => cases h
  | cons x xs ih =>
    simp only [splitOnChar]
    cases hs : splitOnChar c xs with
    | nil => exact absurd hs (splitOnChar_ne_nil c xs)
    | cons y ys =>
      by_cases hx : x = c
      · simp [hx]
      · have hm : c ∈ xs := by
          rcases List.mem_cons.mp h with h1 | h1
          · exact absurd h1.symm hx
          · exact h1
        have := ih hm
        rw [hs] at this
        simp only [hx, if_false, List.length_cons] at *
        omega

/-- Embedding of `selectedFile.name.split('.').pop()`: the last segment of the
dot-split of the display name. -/
def fileExt (name : Str) : Str := (splitOnChar '.' name).getLastD []

theorem fileExt_of_no_dot (name : Str) (h : '.' ∉ name) : fileExt name = name := by
  simp [fileExt, splitOnChar_of_not_mem '.' name h, List.getLastD]

/-- The last segment of a split is separator-free, and when the separator
occurs in the input the input decomposes as a stem, the separator, then that
last segment. -/
theorem splitOnChar_getLastD (c : Char) (l : Str) :
    c ∉ (splitOnChar c l).getLastD [] ∧
      (c ∈ l → ∃ stem, l = stem ++ c :: (splitOnChar c l).getLastD []) := by
  induction l with
  | nil => exact ⟨by simp [splitOnChar, List.getLastD], by simp⟩
  | cons x xs ih =>
    obtain ⟨ih1, ih2⟩ := ih
    cases hs : splitOnChar c xs with
    | nil => exact absurd hs (splitOnChar_ne_nil c xs)
    | cons y ys =>
      rw [hs] at ih1 ih2
      have hcons : splitOnChar c (x :: xs)
          = if x = c then [] :: y :: ys else (x :: y) :: ys := by
        simp only [splitOnChar, hs]
      rw [hcons]
      by_cases hx : x = c
      · subst hx
        rw [if_pos rfl]
        have hlast : (([] : Str) :: y :: ys).getLastD [] = (y :: ys).getLastD [] := by
          simp [List.getLastD_cons]
        refine ⟨by rw [hlast]; exact ih1, fun _ => ?_⟩
        by_cases hm : x ∈ xs
        · obtain ⟨stem, hstem⟩ := ih2 hm
          exact ⟨x :: stem, by rw [hlast]; simp [hstem]⟩
        · have : splitOnChar x xs = [xs] := splitOnChar_of_not_mem x xs hm
          rw [hs] at this
          obtain ⟨hy, hys⟩ := by simpa using this
          subst hy hys
          exact ⟨[], by simp [hlast, List.getLastD]⟩
      · rw [if_neg hx]
        cases ys with
        | nil =>
          have hnm : c ∉ xs := by
            intro hm
            have := splitOnChar_length_ge_two c xs hm
            rw [hs] at this
            simp at this
          have hxy : xs = y := by
            have := splitOnChar_of_not_mem c xs hnm
            rw [hs] at this
            simpa using this.symm
          subst hxy
          refine ⟨?_, fun hm => ?_⟩
          · simp only [List.getLastD]
            intro hmem
            rcases List.mem_cons.mp hmem with h1 | h1
            · exact hx h1.symm
            · exact ih1 (by simpa [List.getLastD] using h1)
          · rcases List.mem_cons.mp hm with h1 | h1
            · exact absurd h1.symm hx
            · exact absurd h1 hnm
        | cons z zs =>
          have hlast : ((x :: y) :: z :: zs).getLastD [] = (y :: z :: zs).getLastD [] := by
            simp [List.getLastD_cons]
          refine ⟨by rw [hlast]; exact ih1, fun hm => ?_⟩
          have hmx : c ∈ xs := by
            rcases List.mem_cons.mp hm with h1 | h1
            · exact absurd h1.symm hx
            · exact h1
          obtain ⟨stem, hstem⟩ := ih2 hmx
          exact ⟨x :: stem, by rw [hlast]; simp [hstem]⟩

theorem fileExt_no_dot (name : Str) : '.' ∉ fileExt name :=
  (splitOnChar_getLastD '.' name).1

theorem fileExt_decomp (name : Str) (h : '.' ∈ name) :
    ∃ stem, name = stem ++ '.' :: fileExt name :=
  (splitOnChar_getLastD '.' name).2 h

/-- Embedding of the generated file name
`Date.now() + '-' + Math.random().toString(36).substring(7) + '.' + fileExt`,
with the time and random components as explicit inputs. -/
def generateFileName (timeStr randStr name : Str) : Str :=
  timeStr ++ '-' :: randStr ++ '.' :: fileExt name

/-- Embedding of the storage key `user.id + '/' + fileName`: a pure function
of the owner identity, the display name and a time/random source. -/
def generateFilePath (userId timeStr randStr name : Str) : Str :=
  userId ++ '/' :: generateFileName timeStr randStr name

/-- The first path segment of a key: the characters before the first slash
(what the SQL storage policies read as `(storage.foldername(name))[1]`). -/
def firstSegment (s : Str) : Str := s.takeWhile (fun x => decide (x ≠ '/'))

theorem firstSegment_append (u rest : Str) (h : '/' ∉ u) :
    firstSegment (u ++ '/' :: rest) = u := by
  induction u with
  | nil =>
    show List.takeWhile _ ('/' :: rest) = []
    rw [List.takeWhile_cons_of_neg (by simp)]
  | cons a u ih =>
    have ha : a ≠ '/' := fun hac => h (hac ▸ List.mem_cons_self a u)
    have hu : '/' ∉ u := fun hm => h (List.mem_cons_of_mem a hm)
    show List.takeWhile _ (a :: (u ++ '/' :: rest)) = a :: u
    rw [List.takeWhile_cons_of_pos (by simp [ha])]
    exact congrArg (a :: ·) (ih hu)

/-- A row of the `files` table from the SQL migration: `id uuid PRIMARY KEY`,
`user_id uuid`, `filename text`, `file_path text`, `file_size bigint`,
`mime_type text`, `created_at timestamptz`. Ids are modelled as naturals
(an ordered, globally unique key space) and timestamps as naturals. -/
structure FileRow where
  id : Nat
  user_id : Str
  filename : Str
  file_path : Str
  file_size : Nat
  mime_type : Str
  created_at : Nat
deriving DecidableEq

/-- The SQL row-level-security SELECT policy on `files`:
`USING (auth.uid() = user_id)` — only rows owned by the authenticated
identity are visible to any query it issues. -/
def rlsSelect (authUid : Str) (catalog : List FileRow) : List FileRow :=
  catalog.filter (fun r => decide (r.user_id = authUid))

/-- The client-side filter of `loadFiles`: `.eq('user_id', queryUid)` applied
on top of the RLS-visible rows (in the app `queryUid` is `user.id`, but the
model lets it be any string, crafted or malformed). -/
def queryRows (authUid queryUid : Str) (catalog : List FileRow) : List FileRow :=
  (rlsSelect authUid catalog).filter (fun r => decide (r.user_id = queryUid))

/-- The ordering `loadFiles` requests: `.order('created_at', { ascending:
false })` — `created_at` non-increasing along the result. -/
def sortedByCreatedAtDesc (out : List FileRow) : Prop :=
  out.Pairwise (fun a b => b.created_at ≤ a.created_at)

instance (out : List FileRow) : Decidable (sortedByCreatedAtDesc out) :=
  List.instDecidablePairwise out

/-- The ordering the specification asserts: `created_at` descending with ties
broken by `id` descending. -/
def orderedByCreatedAtDescIdDesc (out : List FileRow) : Prop :=
  out.Pairwise (fun a b =>
    b.created_at < a.created_at ∨ (b.created_at = a.created_at ∧ b.id < a.id))

instance (out : List FileRow) : Decidable (orderedByCreatedAtDescIdDesc out) :=
  List.instDecidablePairwise out

/-- The possible results of the `loadFiles` query in FileList.tsx. The query
names a single sort key, so the backend may return the owner's rows in any
order that is non-increasing in `created_at`: `out` is a valid result when it
is a permutation of the filtered rows sorted that way. -/
def loadFilesResult (authUid queryUid : Str) (catalog out : List FileRow) : Prop :=
  out.Perm (queryRows authUid queryUid catalog) ∧ sortedByCreatedAtDesc out

instance (authUid queryUid : Str) (catalog out : List FileRow) :
    Decidable (loadFilesResult authUid queryUid catalog out) :=
  inferInstanceAs (Decidable (_ ∧ _))

/-- The authenticated user object (`user.id` is `auth.uid()`). -/
structure UserT where
  id : Str
deriving DecidableEq

/-- A browser `File`: `name`, `size` (bytes), `type` (MIME, possibly empty). -/
structure FileT where
  name : Str
  size : Nat
  type : Str
deriving DecidableEq

/-- The component state of FileUpload: `selectedFile` and `error`. -/
structure UploadState where
  selectedFile : Option FileT
  error : Str
deriving DecidableEq

/-- Initial FileUpload component state: no selection, empty error. -/
def uploadInit : UploadState := ⟨none, []⟩

/-- The backend state: the set of keys present in the Supabase storage bucket
and the rows of the `files` catalog table. -/
structure SysState where
  storage : List Str
  catalog : List FileRow
deriving DecidableEq

/-- One call to either backend, as recorded by the handlers. -/
inductive BackendCall where
  | storageUpload (path : Str)
  | catalogInsert (row : FileRow)
  | storageRemove (path : Str)
  | catalogDelete (id : Nat)
deriving DecidableEq

/-- Whether a backend call is a storage delete (the compensating action the
specification asks the upload coordinator for). -/
def isStorageRemove : BackendCall → Bool
  | .storageRemove _ => true
  | _ => false

/-- The configured maximum object size: `50 * 1024 * 1024` bytes. -/
def maxFileSize : Nat := 50 * 1024 * 1024

/-- The validation message set by `handleFileSelect`. -/
def sizeErrMsg : Str := ("File size must be less than 50MB").data

/-- The default MIME type: `selectedFile.type || 'application/octet-stream'`. -/
def octetStream : Str := ("application/octet-stream").data

/-- Embedding of `handleFileSelect`: if a file is picked and
`file.size > 50 * 1024 * 1024` the error is set and the selection is left
unchanged; otherwise the file is selected and the error cleared. -/
def handleFileSelect (file : Option FileT) (st : UploadState) : UploadState :=
  match file with
  | none => st
  | some f =>
    if f.size > maxFileSize then { st with error := sizeErrMsg }
    else ⟨some f, []⟩

/-- Outcome of a `handleUpload` run: `noop` when the guard
`if (!selectedFile || !user) return;` fires, `success` when both backend
calls succeed, `failure msg` when a thrown backend error is caught and
`setError` is called with its message. -/
inductive UploadOutcome where
  | noop
  | success
  | failure (msg : Str)
deriving DecidableEq

/-- The full observable result of one `handleUpload` run. -/
structure UploadRun where
  outcome : UploadOutcome
  calls : List BackendCall
  state : SysState
  component : UploadState
deriving DecidableEq

/-- The catalog row `handleUpload` inserts:
`{ user_id, filename, file_size, mime_type: type || octet-stream }` plus the
path from the key generator; `id` and `created_at` are assigned by the
database (`gen_random_uuid()`, `now()`) and are inputs to the model. -/
def uploadRow (u : UserT) (f : FileT) (filePath : Str) (newId nowTs : Nat) : FileRow :=
  ⟨newId, u.id, f.name, filePath, f.size,
    (if f.type = [] then octetStream else f.type), nowTs⟩

/-- Embedding of `handleUpload` (FileUpload component). The backend outcomes
are injected: `putErr` is the error thrown by
`supabase.storage.from('user-files').upload(...)` (`none` = success) and
`insertErr` the error thrown by `supabase.from('files').insert(...)`.
The trace records every backend call made. On a caught error the handler
only sets the component error; it issues no further backend call — in
particular no compensating `storage.remove`. -/
def handleUpload (user : Option UserT) (st : UploadState) (sys : SysState)
    (timeStr randStr : Str) (newId nowTs : Nat)
    (putErr insertErr : Option Str) : UploadRun :=
  match st.selectedFile, user with
  | none, _ => ⟨.noop, [], sys, st⟩
  | some _, none => ⟨.noop, [], sys, st⟩
  | some f, some u =>
    let filePath := generateFilePath u.id timeStr randStr f.name
    match putErr with
    | some m => ⟨.failure m, [.storageUpload filePath], sys, { st with error := m }⟩
    | none =>
      let sys1 : SysState := ⟨filePath :: sys.storage, sys.catalog⟩
      let row := uploadRow u f filePath newId nowTs
      match insertErr with
      | some m =>
        ⟨.failure m, [.storageUpload filePath, .catalogInsert row], sys1,
          { st with error := m }⟩
      | none =>
        ⟨.success, [.storageUpload filePath, .catalogInsert row],
          ⟨sys1.storage, row :: sys1.catalog⟩, uploadInit⟩

/-- Outcome of a `handleDelete` run: `cancelled` when the confirm dialog is
declined, `failure msg` when a thrown error is caught and `alert(msg)` shown,
`success` when both backend calls succeed. -/
inductive DeleteOutcome where
  | cancelled
  | success
  | failure (msg : Str)
deriving DecidableEq

/-- The single message `handleDelete` alerts on any caught error:
`alert('Failed to delete file')`. -/
def deleteAlertMsg : Str := ("Failed to delete file").data

/-- The full observable result of one `handleDelete` run. -/
structure DeleteRun where
  outcome : DeleteOutcome
  calls : List BackendCall
  state : SysState
deriving DecidableEq

/-- Effect of a successful `storage.remove([path])` under the storage RLS
DELETE policy (`(storage.foldername(name))[1] = auth.uid()::text`): the key
is removed only when it exists and its first segment is the caller's
identity; removing a missing or foreign key is a silent no-op. -/
def storageRemoveRls (authUid path : Str) (storage : List Str) : List Str :=
  storage.filter (fun k => !(decide (k = path) && decide (firstSegment k = authUid)))

/-- Effect of a successful `.from('files').delete().eq('id', id)` under the
catalog RLS DELETE policy `USING (auth.uid() = user_id)`: only a row with the
given id owned by the caller is removed; zero matching rows is still a
success. -/
def catalogDeleteRls (authUid : Str) (id : Nat) (catalog : List FileRow) : List FileRow :=
  catalog.filter (fun r => !(decide (r.id = id) && decide (r.user_id = authUid)))

/-- Embedding of `handleDelete` (FileList.tsx). Backend outcomes are
injected: `removeErr` for `storage.remove([file.file_path])`, `dbErr` for the
catalog delete; `confirmed` is the confirm dialog. Both failure paths land in
the same `catch` and alert the same constant message. -/
def handleDelete (authUid : Str) (file : FileRow) (sys : SysState)
    (confirmed : Bool) (removeErr dbErr : Option Str) : DeleteRun :=
  if ¬confirmed then ⟨.cancelled, [], sys⟩
  else
    match removeErr with
    | some _ => ⟨.failure deleteAlertMsg, [.storageRemove file.file_path], sys⟩
    | none =>
      let sys1 : SysState := ⟨storageRemoveRls authUid file.file_path sys.storage, sys.catalog⟩
      match dbErr with
      | some _ =>
        ⟨.failure deleteAlertMsg,
          [.storageRemove file.file_path, .catalogDelete file.id], sys1⟩
      | none =>
        ⟨.success, [.storageRemove file.file_path, .catalogDelete file.id],
          ⟨sys1.storage, catalogDeleteRls authUid file.id sys.catalog⟩⟩

theorem mem_queryRows {authUid queryUid : Str} {catalog : List FileRow} {r : FileRow}
    (h : r ∈ queryRows authUid queryUid catalog) :
    r ∈ catalog ∧ r.user_id = authUid ∧ r.user_id = queryUid := by
  simp only [queryRows, rlsSelect, List.mem_filter, decide_eq_true_eq] at h
  exact ⟨h.1.1, h.1.2, h.2⟩

theorem mem_queryRows_self {authUid : Str} {catalog : List FileRow} {r : FileRow}
    (h : r ∈ catalog) (h2 : r.user_id = authUid) :
    r ∈ queryRows authUid authUid catalog := by
  simp [queryRows, rlsSelect, List.mem_filter, h, h2]

/-- C1: tenant isolation. For distinct identities A ≠ B, any result of the
`loadFiles` query issued under A's session — even with an arbitrary, crafted
or malformed client-side filter value `q` — contains only rows whose owner is
A, and never a row owned by B: the row-level-security policy filters the
catalog to `user_id = A` and the client query further filters
`user_id = q`, so the owner check holds in the catalog query itself. -/
theorem c1_tenant_isolation (A B q : Str) (catalog out : List FileRow)
    (hAB : A ≠ B) (h : loadFilesResult A q catalog out) :
    (∀ r ∈ out, r.user_id = A) ∧ (∀ r ∈ out, r.user_id ≠ B) := by
  have hmem : ∀ r ∈ out, r.user_id = A := by
    intro r hr
    exact (mem_queryRows (h.1.mem_iff.mp hr)).2.1
  exact ⟨hmem, fun r hr hB => hAB ((hmem r hr).symm.trans hB)⟩

theorem c1_tenant_isolation_witness :
    (∀ r ∈ [(⟨1, ['a'], [], [], 0, [], 3⟩ : FileRow)], r.user_id = ['a']) ∧
    (∀ r ∈ [(⟨1, ['a'], [], [], 0, [], 3⟩ : FileRow)], r.user_id ≠ ['b']) :=
  c1_tenant_isolation ['a'] ['b'] ['a']
    [⟨1, ['a'], [], [], 0, [], 3⟩, ⟨2, ['b'], [], [], 0, [], 7⟩]
    [⟨1, ['a'], [], [], 0, [], 3⟩] (by decide) (by constructor <;> decide)

/-- C5 counterexample: the `loadFiles` query orders only by `created_at`
descending. For a catalog holding two rows of one owner with equal
`created_at` and ids 1 and 2, both `[row1, row2]` and `[row2, row1]` are
valid query results, they differ, and the first violates the claimed
`id`-descending tie-break — so the output is neither id-tie-broken nor
deterministic. -/
theorem c5_counterexample :
    loadFilesResult ['u'] ['u']
        [⟨1, ['u'], [], [], 0, [], 5⟩, ⟨2, ['u'], [], [], 0, [], 5⟩]
        [⟨1, ['u'], [], [], 0, [], 5⟩, ⟨2, ['u'], [], [], 0, [], 5⟩] ∧
    loadFilesResult ['u'] ['u']
        [⟨1, ['u'], [], [], 0, [], 5⟩, ⟨2, ['u'], [], [], 0, [], 5⟩]
        [⟨2, ['u'], [], [], 0, [], 5⟩, ⟨1, ['u'], [], [], 0, [], 5⟩] ∧
    ([(⟨1, ['u'], [], [], 0, [], 5⟩ : FileRow), ⟨2, ['u'], [], [], 0, [], 5⟩]
        ≠ [⟨2, ['u'], [], [], 0, [], 5⟩, ⟨1, ['u'], [], [], 0, [], 5⟩]) ∧
    ¬ orderedByCreatedAtDescIdDesc
        [⟨1, ['u'], [], [], 0, [], 5⟩, ⟨2, ['u'], [], [], 0, [], 5⟩] := by
  refine ⟨⟨?_, ?_⟩, ⟨?_, ?_⟩, ?_, ?_⟩ <;> decide

/-- C5 amended: every valid result of the `loadFiles` query for owner
`authUid` contains exactly the owner's rows and is ordered by `created_at`
descending; but no `id` tie-break is requested, so the order among rows with
equal `created_at` is backend-chosen and the output is not determined by the
catalog state. -/
theorem c5_list_order (authUid : Str) (catalog out : List FileRow)
    (h : loadFilesResult authUid authUid catalog out) :
    (∀ r ∈ out, r.user_id = authUid) ∧ sortedByCreatedAtDesc out ∧
      (∀ r ∈ catalog, r.user_id = authUid → r ∈ out) := by
  refine ⟨fun r hr => (mem_queryRows (h.1.mem_iff.mp hr)).2.1, h.2, ?_⟩
  intro r hr hu
  exact h.1.mem_iff.mpr (mem_queryRows_self hr hu)

theorem c5_list_order_witness :
    (∀ r ∈ [(⟨1, ['u'], [], [], 0, [], 5⟩ : FileRow)], r.user_id = ['u']) ∧
    sortedByCreatedAtDesc [(⟨1, ['u'], [], [], 0, [], 5⟩ : FileRow)] ∧
    (∀ r ∈ [(⟨1, ['u'], [], [], 0, [], 5⟩ : FileRow)], r.user_id = ['u'] →
      r ∈ [(⟨1, ['u'], [], [], 0, [], 5⟩ : FileRow)]) :=
  c5_list_order ['u'] [⟨1, ['u'], [], [], 0, [], 5⟩] [⟨1, ['u'], [], [], 0, [], 5⟩]
    (by constructor <;> decide)

/-- C9: the storage key `user.id + '/' + Date.now() + '-' + rand + '.' + ext`
is a pure function of the owner identity, the display name and a time/random
source (`generateFilePath` takes nothing else and touches no backend). Its
first path segment is the owner identity (identities are `auth.uid()` UUIDs,
so they contain no slash — hypothesis `hs`), and when the display name
contains a dot the key ends in `'.' :: fileExt name` where `fileExt name` is
exactly the display name's extension: the dot-free suffix after its last
dot. -/
theorem c9_storage_key (userId timeStr randStr name : Str) (hs : '/' ∉ userId) :
    firstSegment (generateFilePath userId timeStr randStr name) = userId ∧
    ('.' :: fileExt name) <:+ generateFilePath userId timeStr randStr name ∧
    '.' ∉ fileExt name ∧
    ('.' ∈ name → ∃ stem, name = stem ++ '.' :: fileExt name) := by
  refine ⟨firstSegment_append userId _ hs, ?_, fileExt_no_dot name, fileExt_decomp name⟩
  exact ⟨userId ++ '/' :: (timeStr ++ '-' :: randStr), by
    simp [generateFilePath, generateFileName]⟩

theorem c9_storage_key_witness :
    firstSegment (generateFilePath ['a', 'b'] ['1'] ['r'] ['f', '.', 't', 'x', 't'])
        = ['a', 'b'] ∧
    ('.' :: fileExt ['f', '.', 't', 'x', 't'])
        <:+ generateFilePath ['a', 'b'] ['1'] ['r'] ['f', '.', 't', 'x', 't'] ∧
    (∃ stem, ['f', '.', 't', 'x', 't'] = stem ++ '.' :: fileExt ['f', '.', 't', 'x', 't']) :=
  ⟨(c9_storage_key ['a', 'b'] ['1'] ['r'] ['f', '.', 't', 'x', 't'] (by decide)).1,
   (c9_storage_key ['a', 'b'] ['1'] ['r'] ['f', '.', 't', 'x', 't'] (by decide)).2.1,
   (c9_storage_key ['a', 'b'] ['1'] ['r'] ['f', '.', 't', 'x', 't'] (by decide)).2.2.2
     (by decide)⟩

/-- C10: for a display name with no dot, `name.split('.').pop()` is the whole
name, so the generated storage key still ends with a dot followed by the
entire display name — the key generator never emits a key without a
dot-separated suffix. -/
theorem c10_dotless_suffix (userId timeStr randStr name : Str) (h : '.' ∉ name) :
    fileExt name = name ∧
    ('.' :: name) <:+ generateFilePath userId timeStr randStr name := by
  have he := fileExt_of_no_dot name h
  refine ⟨he, ⟨userId ++ '/' :: (timeStr ++ '-' :: randStr), ?_⟩⟩
  simp [generateFilePath, generateFileName, he]

theorem c10_dotless_suffix_witness :
    fileExt ['R', 'E', 'A', 'D', 'M', 'E'] = ['R', 'E', 'A', 'D', 'M', 'E'] ∧
    ('.' :: ['R', 'E', 'A', 'D', 'M', 'E'])
        <:+ generateFilePath ['u'] ['1'] ['r'] ['R', 'E', 'A', 'D', 'M', 'E'] :=
  c10_dotless_suffix ['u'] ['1'] ['r'] ['R', 'E', 'A', 'D', 'M', 'E'] (by decide)

/-- C6: selecting a file of exactly `50 * 1024 * 1024` bytes is accepted (it
becomes the selection, no error) and an upload of it with healthy backends
succeeds, while selecting a file one byte larger sets the validation error
and leaves nothing selected, so the subsequent `handleUpload` run returns at
its guard with an empty backend-call trace — zero storage and zero catalog
calls. -/
theorem c6_size_boundary (u : UserT) (user : Option UserT) (sys : SysState)
    (timeStr randStr : Str) (newId nowTs : Nat) (putErr insertErr : Option Str)
    (fAt fOver : FileT)
    (hAt : fAt.size = maxFileSize) (hOver : fOver.size = maxFileSize + 1) :
    handleFileSelect (some fAt) uploadInit = ⟨some fAt, []⟩ ∧
    (handleUpload (some u) (handleFileSelect (some fAt) uploadInit) sys
        timeStr randStr newId nowTs none none).outcome = .success ∧
    handleFileSelect (some fOver) uploadInit = ⟨none, sizeErrMsg⟩ ∧
    handleUpload user (handleFileSelect (some fOver) uploadInit) sys
        timeStr randStr newId nowTs putErr insertErr
      = ⟨.noop, [], sys, ⟨none, sizeErrMsg⟩⟩ := by
  have h1 : handleFileSelect (some fAt) uploadInit = ⟨some fAt, []⟩ := by
    simp [handleFileSelect, hAt]
  have h2 : handleFileSelect (some fOver) uploadInit = ⟨none, sizeErrMsg⟩ := by
    simp [handleFileSelect, hOver, uploadInit]
  refine ⟨h1, ?_, h2, ?_⟩
  · rw [h1]; rfl
  · rw [h2]; cases user <;> rfl

theorem c6_size_boundary_witness :
    handleFileSelect (some ⟨['a'], 52428800, []⟩) uploadInit
      = ⟨some ⟨['a'], 52428800, []⟩, []⟩ ∧
    (handleUpload (some ⟨['u']⟩)
        (handleFileSelect (some ⟨['a'], 52428800, []⟩) uploadInit)
        ⟨[], []⟩ ['1'] ['r'] 1 10 none none).outcome = .success ∧
    handleFileSelect (some ⟨['a'], 52428801, []⟩) uploadInit = ⟨none, sizeErrMsg⟩ ∧
    handleUpload (some ⟨['u']⟩)
        (handleFileSelect (some ⟨['a'], 52428801, []⟩) uploadInit)
        ⟨[], []⟩ ['1'] ['r'] 1 10 none none
      = ⟨.noop, [], ⟨[], []⟩, ⟨none, sizeErrMsg⟩⟩ :=
  c6_size_boundary ⟨['u']⟩ (some ⟨['u']⟩) ⟨[], []⟩ ['1'] ['r'] 1 10 none none
    ⟨['a'], 52428800, []⟩ ⟨['a'], 52428801, []⟩ (by decide) (by decide)

/-- C7 counterexample: a file whose display name is empty (and whose size is
within bounds) is accepted by `handleFileSelect`, and the subsequent
`handleUpload` run calls the blob repository and the catalog — the storage
upload happens and a row with an empty `filename` is inserted and committed,
refuting that an empty display name is rejected before any backend call. -/
theorem c7_counterexample :
    handleUpload (some ⟨['u']⟩)
        (handleFileSelect (some ⟨[], 5, []⟩) uploadInit)
        ⟨[], []⟩ ['1'] ['r'] 1 10 none none
      = ⟨.success,
         [.storageUpload ['u', '/', '1', '-', 'r', '.'],
          .catalogInsert ⟨1, ['u'], [], ['u', '/', '1', '-', 'r', '.'], 5, octetStream, 10⟩],
         ⟨[['u', '/', '1', '-', 'r', '.']],
          [⟨1, ['u'], [], ['u', '/', '1', '-', 'r', '.'], 5, octetStream, 10⟩]⟩,
         uploadInit⟩ := by
  decide

/-- C7 amended: the upload path performs no display-name validation. Every
selected file with an in-bound size — an empty name included — proceeds to
both backends: the blob is stored under the generated key and a catalog row
whose `filename` equals the (possibly empty) display name is inserted. -/
theorem c7_empty_name_not_validated (u : UserT) (f : FileT) (e : Str) (sys : SysState)
    (timeStr randStr : Str) (newId nowTs : Nat)
    (hname : f.name = []) (hsize : ¬ f.size > maxFileSize) :
    (uploadRow u f (generateFilePath u.id timeStr randStr f.name) newId nowTs).filename
        = [] ∧
    handleUpload (some u) (handleFileSelect (some f) ⟨none, e⟩) sys
        timeStr randStr newId nowTs none none
      = ⟨.success,
         [.storageUpload (generateFilePath u.id timeStr randStr f.name),
          .catalogInsert (uploadRow u f (generateFilePath u.id timeStr randStr f.name)
            newId nowTs)],
         ⟨generateFilePath u.id timeStr randStr f.name :: sys.storage,
          uploadRow u f (generateFilePath u.id timeStr randStr f.name) newId nowTs
            :: sys.catalog⟩,
         uploadInit⟩ := by
  have h1 : handleFileSelect (some f) ⟨none, e⟩ = ⟨some f, []⟩ := by
    simp [handleFileSelect, hsize]
  exact ⟨hname, by rw [h1]; rfl⟩

theorem c7_empty_name_not_validated_witness :
    (uploadRow ⟨['u']⟩ ⟨[], 5, []⟩ (generateFilePath ['u'] ['1'] ['r'] []) 1 10).filename
        = [] ∧
    handleUpload (some ⟨['u']⟩) (handleFileSelect (some ⟨[], 5, []⟩) ⟨none, []⟩)
        ⟨[], []⟩ ['1'] ['r'] 1 10 none none
      = ⟨.success,
         [.storageUpload (generateFilePath ['u'] ['1'] ['r'] []),
          .catalogInsert (uploadRow ⟨['u']⟩ ⟨[], 5, []⟩
            (generateFilePath ['u'] ['1'] ['r'] []) 1 10)],
         ⟨[generateFilePath ['u'] ['1'] ['r'] []],
          [uploadRow ⟨['u']⟩ ⟨[], 5, []⟩ (generateFilePath ['u'] ['1'] ['r'] []) 1 10]⟩,
         uploadInit⟩ :=
  c7_empty_name_not_validated ⟨['u']⟩ ⟨[], 5, []⟩ [] ⟨[], []⟩ ['1'] ['r'] 1 10
    (by decide) (by decide)

/-- C2 counterexample: a concrete upload run in which the blob write succeeds
and the catalog insert fails. The recorded backend-call trace is exactly the
storage upload and the catalog insert — it contains no storage remove, so no
compensating delete of the orphaned blob is ever attempted; the run fails
with the caught error and the blob stays in storage while the catalog is
unchanged. -/
theorem c2_counterexample :
    (handleUpload (some ⟨['u']⟩) ⟨some ⟨['f', '.', 't'], 3, []⟩, []⟩ ⟨[], []⟩
        ['1'] ['r'] 1 10 none (some ['e'])).calls.all
      (fun c => !(isStorageRemove c)) = true ∧
    handleUpload (some ⟨['u']⟩) ⟨some ⟨['f', '.', 't'], 3, []⟩, []⟩ ⟨[], []⟩
        ['1'] ['r'] 1 10 none (some ['e'])
      = ⟨.failure ['e'],
         [.storageUpload ['u', '/', '1', '-', 'r', '.', 't'],
          .catalogInsert
            ⟨1, ['u'], ['f', '.', 't'], ['u', '/', '1', '-', 'r', '.', 't'], 3,
              octetStream, 10⟩],
         ⟨[['u', '/', '1', '-', 'r', '.', 't']], []⟩,
         ⟨some ⟨['f', '.', 't'], 3, []⟩, ['e']⟩⟩ :=
  ⟨by decide, by decide⟩

/-- C2 amended: when the blob write succeeds and the catalog insert fails,
`handleUpload` fails with the caught error message — it never reports
success — but it attempts no compensating delete: its backend-call trace is
exactly the storage upload followed by the catalog insert, and the final
state keeps the orphaned blob in storage with the catalog unchanged. -/
theorem c2_metadata_fail_no_compensation (u : UserT) (f : FileT) (e : Str)
    (sys : SysState) (timeStr randStr : Str) (newId nowTs : Nat) (m : Str) :
    handleUpload (some u) ⟨some f, e⟩ sys timeStr randStr newId nowTs none (some m)
      = ⟨.failure m,
         [.storageUpload (generateFilePath u.id timeStr randStr f.name),
          .catalogInsert (uploadRow u f (generateFilePath u.id timeStr randStr f.name)
            newId nowTs)],
         ⟨generateFilePath u.id timeStr randStr f.name :: sys.storage, sys.catalog⟩,
         ⟨some f, m⟩⟩ :=
  rfl

/-- C3: `handleDelete` calls the blob repository first and the catalog
second. When the blob delete throws, the run fails, the only backend call is
the storage remove — the catalog row is untouched and the whole state is
unchanged — and the record still appears in every valid result of a
subsequent owner list; on the path where the blob delete succeeds the trace
is the storage remove followed by the catalog delete, in that order. -/
theorem c3_delete_blob_first (authUid : Str) (file : FileRow) (sys : SysState)
    (m : Str) (dbErr : Option Str) (out : List FileRow)
    (hmem : file ∈ sys.catalog) (hown : file.user_id = authUid) :
    handleDelete authUid file sys true (some m) dbErr
      = ⟨.failure deleteAlertMsg, [.storageRemove file.file_path], sys⟩ ∧
    (handleDelete authUid file sys true none dbErr).calls
      = [.storageRemove file.file_path, .catalogDelete file.id] ∧
    (loadFilesResult authUid authUid
        (handleDelete authUid file sys true (some m) dbErr).state.catalog out →
      file ∈ out) := by
  refine ⟨rfl, ?_, ?_⟩
  · cases dbErr <;> rfl
  · intro h
    exact h.1.mem_iff.mpr (mem_queryRows_self hmem hown)

theorem c3_delete_blob_first_witness :
    handleDelete ['u'] ⟨1, ['u'], [], ['u', '/', 'k'], 0, [], 5⟩
        ⟨[['u', '/', 'k']], [⟨1, ['u'], [], ['u', '/', 'k'], 0, [], 5⟩]⟩
        true (some ['x']) none
      = ⟨.failure deleteAlertMsg, [.storageRemove ['u', '/', 'k']],
         ⟨[['u', '/', 'k']], [⟨1, ['u'], [], ['u', '/', 'k'], 0, [], 5⟩]⟩⟩ ∧
    (⟨1, ['u'], [], ['u', '/', 'k'], 0, [], 5⟩ : FileRow)
      ∈ [(⟨1, ['u'], [], ['u', '/', 'k'], 0, [], 5⟩ : FileRow)] :=
  ⟨(c3_delete_blob_first ['u'] ⟨1, ['u'], [], ['u', '/', 'k'], 0, [], 5⟩
      ⟨[['u', '/', 'k']], [⟨1, ['u'], [], ['u', '/', 'k'], 0, [], 5⟩]⟩ ['x'] none
      [⟨1, ['u'], [], ['u', '/', 'k'], 0, [], 5⟩] (by decide) (by decide)).1,
   (c3_delete_blob_first ['u'] ⟨1, ['u'], [], ['u', '/', 'k'], 0, [], 5⟩
      ⟨[['u', '/', 'k']], [⟨1, ['u'], [], ['u', '/', 'k'], 0, [], 5⟩]⟩ ['x'] none
      [⟨1, ['u'], [], ['u', '/', 'k'], 0, [], 5⟩] (by decide) (by decide)).2.2
     (by decide)⟩

/-- C4 counterexample: at a concrete catalog state, the run where the blob
delete succeeds and the catalog delete fails produces exactly the same
outcome — `alert('Failed to delete file')` — as the run where the blob
delete itself fails: the partial-delete failure is mapped to the same
generic outcome as a first-step failure, refuting that it is distinguished
as `PartialDeleteFailure`. -/
theorem c4_counterexample :
    (handleDelete ['u'] ⟨1, ['u'], [], ['u', '/', 'k'], 0, [], 5⟩
        ⟨[['u', '/', 'k']], [⟨1, ['u'], [], ['u', '/', 'k'], 0, [], 5⟩]⟩
        true none (some ['e'])).outcome
      = (handleDelete ['u'] ⟨1, ['u'], [], ['u', '/', 'k'], 0, [], 5⟩
          ⟨[['u', '/', 'k']], [⟨1, ['u'], [], ['u', '/', 'k'], 0, [], 5⟩]⟩
          true (some ['x']) none).outcome ∧
    (handleDelete ['u'] ⟨1, ['u'], [], ['u', '/', 'k'], 0, [], 5⟩
        ⟨[['u', '/', 'k']], [⟨1, ['u'], [], ['u', '/', 'k'], 0, [], 5⟩]⟩
        true none (some ['e'])).outcome = .failure deleteAlertMsg :=
  ⟨rfl, rfl⟩

/-- C4 amended: when the blob delete succeeds and the catalog delete fails,
`handleDelete` does fail — never success — with the blob gone and the
catalog row still present (the dangling-reference state); but the outcome is
the single generic alert `'Failed to delete file'`, identical to the outcome
of a first-step failure: no distinct `PartialDeleteFailure` kind exists in
the code. -/
theorem c4_partial_delete_generic (authUid : Str) (file : FileRow)
    (sys : SysState) (m m2 : Str) :
    handleDelete authUid file sys true none (some m)
      = ⟨.failure deleteAlertMsg,
         [.storageRemove file.file_path, .catalogDelete file.id],
         ⟨storageRemoveRls authUid file.file_path sys.storage, sys.catalog⟩⟩ ∧
    (handleDelete authUid file sys true none (some m)).outcome
      ≠ .success ∧
    (handleDelete authUid file sys true none (some m)).outcome
      = (handleDelete authUid file sys true (some m2) none).outcome :=
  ⟨rfl, fun h => DeleteOutcome.noConfusion h, rfl⟩

/-- C8 counterexample: deleting an object whose blob and catalog row are both
already gone (the second call of a repeated delete) reports success — the
storage remove and catalog delete are silent no-ops — rather than the
`NotFound` the specification claims. -/
theorem c8_counterexample :
    handleDelete ['u'] ⟨1, ['u'], [], ['u', '/', 'k'], 0, [], 0⟩ ⟨[], []⟩
        true none none
      = ⟨.success, [.storageRemove ['u', '/', 'k'], .catalogDelete 1], ⟨[], []⟩⟩ := by
  decide

/-- C8 amended: `handleDelete` checks no precondition at all. When the
object's key is absent from storage and no catalog row carries its id —
in particular on a second delete of an already-deleted object — both
backend calls are no-ops under the RLS policies and the run reports success
with the state unchanged; `NotFound` is never produced. -/
theorem c8_delete_missing_reports_success (authUid : Str) (file : FileRow)
    (sys : SysState)
    (hpath : file.file_path ∉ sys.storage)
    (hid : ∀ r ∈ sys.catalog, r.id ≠ file.id) :
    handleDelete authUid file sys true none none
      = ⟨.success, [.storageRemove file.file_path, .catalogDelete file.id], sys⟩ := by
  have h1 : storageRemoveRls authUid file.file_path sys.storage = sys.storage := by
    apply List.filter_eq_self.mpr
    intro k hk
    have hne : k ≠ file.file_path := fun he => hpath (he ▸ hk)
    simp [hne]
  have h2 : catalogDeleteRls authUid file.id sys.catalog = sys.catalog := by
    apply List.filter_eq_self.mpr
    intro r hr
    simp [hid r hr]
  have hrun : handleDelete authUid file sys true none none
      = ⟨.success, [.storageRemove file.file_path, .catalogDelete file.id],
         ⟨storageRemoveRls authUid file.file_path sys.storage,
          catalogDeleteRls authUid file.id sys.catalog⟩⟩ := rfl
  rw [hrun, h1, h2]

theorem c8_delete_missing_reports_success_witness :
    handleDelete ['u'] ⟨1, ['u'], [], ['u', '/', 'k'], 0, [], 0⟩
        ⟨[['u', '/', 'q']], [⟨2, ['u'], [], ['u', '/', 'q'], 0, [], 0⟩]⟩
        true none none
      = ⟨.success, [.storageRemove ['u', '/', 'k'], .catalogDelete 1],
         ⟨[['u', '/', 'q']], [⟨2, ['u'], [], ['u', '/', 'q'], 0, [], 0⟩]⟩⟩ :=
  c8_delete_missing_reports_success ['u'] ⟨1, ['u'], [], ['u', '/', 'k'], 0, [], 0⟩
    ⟨[['u', '/', 'q']], [⟨2, ['u'], [], ['u', '/', 'q'], 0, [], 0⟩]⟩
    (by decide) (by decide)

end CloudStorage
